import Mathlib

set_option autoImplicit false

/- Shallow embedding of the go-osx-plist package (package plist): the marshal
   engine (convert.go: Marshal, marshalValue, marshalStruct, encodeFields,
   isEmptyValue, isValidName), the unmarshal engine (convert.go: Unmarshal,
   unmarshalState.unmarshalValue, recordError), the scalar conversion routines
   (utils.go), the format codec boundary (plist.go), and the test helper
   standardize (from the test sources).  Machine integers are modelled as
   Nat/Int with explicit truncation where Go truncates; float64 values are
   modelled exactly (finite values as rationals, plus NaN and infinities),
   which is faithful for every float the verified routines construct. -/

/-- Signed integer kinds of Go: int8, int16, int32, int64 and the 64-bit platform int. -/
inductive IntKind where
  | i8 | i16 | i32 | i64 | iword
  deriving DecidableEq, Repr

/-- Unsigned integer kinds of Go: uint8, uint16, uint32, uint64, and uint/uintptr with a platform bit width. -/
inductive UintKind where
  | u8 | u16 | u32 | u64
  | uptr (bits : Nat)
  deriving DecidableEq, Repr

/-- Bit width of a signed kind (reflect Type.Bits for the signed kinds). -/
def IntKind.bits : IntKind → Nat
  | .i8 => 8
  | .i16 => 16
  | .i32 => 32
  | .i64 => 64
  | .iword => 64

/-- Bit width of an unsigned kind (reflect Type.Bits for the unsigned kinds). -/
def UintKind.bits : UintKind → Nat
  | .u8 => 8
  | .u16 => 16
  | .u32 => 32
  | .u64 => 64
  | .uptr b => b

/-- Model of a Go float64 value: a finite value represented exactly as a
rational, NaN, or a signed infinity.  Every finite float manipulated in this
development is exactly representable. -/
inductive GoFloat where
  | finite (q : Rat)
  | nan
  | inf (positive : Bool)
  deriving DecidableEq, Repr

/-- Model of Go math.IsNaN. -/
def GoFloat.isNaN : GoFloat → Bool
  | .nan => true
  | _ => false

/-- Model of Go math.IsInf(f, 0). -/
def GoFloat.isInf : GoFloat → Bool
  | .inf _ => true
  | _ => false

/-- Format represents the format of the property list (plist.go). -/
structure Format where
  cfFormat : Nat
  deriving DecidableEq, Repr

/-- OpenStep format (plist.go). -/
def OpenStepFormat : Format := ⟨1⟩

/-- XML format version 1.0 (plist.go). -/
def XMLFormat : Format := ⟨100⟩

/-- Binary format version 1.0 (plist.go). -/
def BinaryFormat : Format := ⟨200⟩

mutual
/-- Go types relevant to the engine, as dispatched on by reflect kinds in
convert.go.  bytesTy is the distinguished byteSliceType; structTy carries the
declared fields in order. -/
inductive GoTy where
  | boolTy
  | intTy (k : IntKind)
  | uintTy (k : UintKind)
  | floatTy (bits : Nat)
  | stringTy
  | bytesTy
  | timeTy
  | sliceTy (elem : GoTy)
  | arrayTy (len : Nat) (elem : GoTy)
  | mapTy (key : GoTy) (elem : GoTy)
  | structTy (fields : List FieldDecl)
  | ptrTy (elem : GoTy)
  | ifaceTy

/-- A struct field declaration: Go field name, plist struct tag, exportedness
(PkgPath == "" in reflect), anonymity, and field type. -/
inductive FieldDecl where
  | mk (name : String) (tag : String) (exported : Bool) (anonymous : Bool) (ty : GoTy)
end

/-- Field name accessor. -/
def FieldDecl.name : FieldDecl → String
  | .mk n _ _ _ _ => n

/-- Field tag accessor (the value of the plist struct tag key). -/
def FieldDecl.tag : FieldDecl → String
  | .mk _ t _ _ _ => t

/-- Field exportedness accessor. -/
def FieldDecl.exported : FieldDecl → Bool
  | .mk _ _ e _ _ => e

/-- Field anonymity accessor. -/
def FieldDecl.anonymous : FieldDecl → Bool
  | .mk _ _ _ a _ => a

/-- Field type accessor. -/
def FieldDecl.ty : FieldDecl → GoTy
  | .mk _ _ _ _ t => t

/-- Go values as walked by the engine via reflect.  Go strings are raw byte
sequences (possibly invalid UTF-8).  Slices and byte slices and maps carry a
nil flag distinguishing nil from empty; interface indirections inside
containers are kept unwrapped (marshalValue recurses straight through them),
with nilIface standing for a nil interface value and nilPtr for a nil
pointer. -/
inductive GoValue where
  | bool (b : Bool)
  | int (k : IntKind) (v : Int)
  | uint (k : UintKind) (v : Nat)
  | float (bits : Nat) (f : GoFloat)
  | string (bytes : List UInt8)
  | bytes (isNil : Bool) (data : List UInt8)
  | time (unixNano : Int)
  | slice (elemTy : GoTy) (isNil : Bool) (elems : List GoValue)
  | array (elemTy : GoTy) (elems : List GoValue)
  | map (elemTy : GoTy) (isNil : Bool) (entries : List (List UInt8 × GoValue))
  | struct (fields : List (FieldDecl × GoValue))
  | ptr (elemTy : GoTy) (pointee : GoValue)
  | nilPtr (elemTy : GoTy)
  | nilIface

/-- CFNumber contents: the package only creates numbers with the SInt64 type
(convertInt64ToCFNumber, convertUInt32ToCFNumber) or the Double type
(convertFloat64ToCFNumber). -/
inductive CFNumberVal where
  | sint64 (v : Int)
  | float64 (f : GoFloat)
  deriving DecidableEq, Repr

/-- The CoreFoundation property-list value model: the tagged union of the
seven plist object types.  CFString contents are stored as their UTF-8 bytes
(valid by construction); CFDate is stored at the millisecond precision that
convertTimeToCFDate truncates to. -/
inductive CFValue where
  | boolean (b : Bool)
  | number (n : CFNumberVal)
  | string (utf8 : List UInt8)
  | data (bytes : List UInt8)
  | date (unixMillis : Int)
  | array (elems : List CFValue)
  | dict (entries : List (List UInt8 × CFValue))

/-- The error values of the package (errors.go and convert.go), carrying the
payload components that the claims inspect. -/
inductive PErr where
  | unsupportedType (typeDesc : String)
  | unsupportedValue (str : String)
  | stringConv
  | cfError
  | unknownCFType (typeName : String)
  | unmarshalType (value : String) (ty : GoTy)
  | unmarshalField (key : List UInt8) (fieldName : String)
  | invalidUnmarshal (typeDesc : String)

/-- UTF-8 encoding of one Unicode scalar value; used to spell the byte form of
Go string literals appearing in the sources and tests. -/
def encodeChar (c : Char) : List UInt8 :=
  let n := c.toNat
  if n < 128 then [UInt8.ofNat n]
  else if n < 2048 then
    [UInt8.ofNat (192 + n / 64), UInt8.ofNat (128 + n % 64)]
  else if n < 65536 then
    [UInt8.ofNat (224 + n / 4096), UInt8.ofNat (128 + (n / 64) % 64), UInt8.ofNat (128 + n % 64)]
  else
    [UInt8.ofNat (240 + n / 262144), UInt8.ofNat (128 + (n / 4096) % 64),
     UInt8.ofNat (128 + (n / 64) % 64), UInt8.ofNat (128 + n % 64)]

/-- The UTF-8 bytes of a Lean string literal, standing for the bytes of the
corresponding Go string. -/
def strBytes (s : String) : List UInt8 := (s.data.map encodeChar).flatten

/-- Whether a byte is a UTF-8 continuation byte. -/
def utf8Cont (b : UInt8) : Bool := 128 ≤ b && b ≤ 191

/-- Strict UTF-8 validity (RFC 3629: no overlong forms, no surrogates, max
U+10FFFF).  This is the validity notion of CFStringCreateWithBytes with the
UTF-8 encoding, which returns NULL on invalid input — utils.go documents this
on convertStringToCFString. -/
def utf8Valid : List UInt8 → Bool
  | [] => true
  | b :: rest =>
    if b ≤ 127 then utf8Valid rest
    else if 194 ≤ b && b ≤ 223 then
      match rest with
      | c1 :: r => utf8Cont c1 && utf8Valid r
      | [] => false
    else if b == 224 then
      match rest with
      | c1 :: c2 :: r => (160 ≤ c1 && c1 ≤ 191) && utf8Cont c2 && utf8Valid r
      | _ => false
    else if (225 ≤ b && b ≤ 236) || b == 238 || b == 239 then
      match rest with
      | c1 :: c2 :: r => utf8Cont c1 && utf8Cont c2 && utf8Valid r
      | _ => false
    else if b == 237 then
      match rest with
      | c1 :: c2 :: r => (128 ≤ c1 && c1 ≤ 159) && utf8Cont c2 && utf8Valid r
      | _ => false
    else if b == 240 then
      match rest with
      | c1 :: c2 :: c3 :: r => (144 ≤ c1 && c1 ≤ 191) && utf8Cont c2 && utf8Cont c3 && utf8Valid r
      | _ => false
    else if 241 ≤ b && b ≤ 243 then
      match rest with
      | c1 :: c2 :: c3 :: r => utf8Cont c1 && utf8Cont c2 && utf8Cont c3 && utf8Valid r
      | _ => false
    else if b == 244 then
      match rest with
      | c1 :: c2 :: c3 :: r => (128 ≤ c1 && c1 ≤ 143) && utf8Cont c2 && utf8Cont c3 && utf8Valid r
      | _ => false
    else false

/-- ASCII lower-casing of a byte, for the case-insensitive field match. -/
def toLowerByte (b : UInt8) : UInt8 :=
  if 65 ≤ b && b ≤ 90 then b + 32 else b

/-- Model of Go strings.EqualFold on the raw bytes of the two strings.  It
agrees with strings.EqualFold whenever both strings are ASCII, which covers
every field name and key this development compares. -/
def asciiEqualFold : List UInt8 → List UInt8 → Bool
  | [], [] => true
  | a :: as, b :: bs => toLowerByte a == toLowerByte b && asciiEqualFold as bs
  | _, _ => false

/-- Truncating (toward zero) integer quotient, as Go integer division and C
float-to-integer conversion behave. -/
def intQuotT (a b : Int) : Int := Int.sign a * Int.sign b * ((a.natAbs / b.natAbs : Nat) : Int)

/-- Truncation of an exact rational toward zero, the conversion C applies when
a double is read as an SInt64. -/
def ratTruncToInt (q : Rat) : Int := intQuotT q.num (q.den : Int)

/-- Low 32 bits of an int64, as Go uint32(i) computes them. -/
def uint32OfInt64 (a : Int) : Nat := (a.emod 4294967296).toNat

/-- Model of utils.go convertBoolToCFBoolean. -/
def convertBoolToCFBoolean (b : Bool) : CFValue := .boolean b

/-- Model of utils.go convertCFBooleanToBool. -/
def convertCFBooleanToBool (b : Bool) : Bool := b

/-- Model of utils.go convertInt64ToCFNumber: a CFNumber of SInt64 type. -/
def convertInt64ToCFNumber (i : Int) : CFValue := .number (.sint64 i)

/-- Model of utils.go convertUInt32ToCFNumber: the uint32 value stored in a
CFNumber of SInt64 type. -/
def convertUInt32ToCFNumber (u : Nat) : CFValue := .number (.sint64 (u : Int))

/-- Model of utils.go convertFloat64ToCFNumber: a CFNumber of Double type. -/
def convertFloat64ToCFNumber (f : GoFloat) : CFValue := .number (.float64 f)

/-- Model of utils.go convertCFNumberToInt64: CFNumberGetValue with the SInt64
type.  Reading a Double-typed number converts it, truncating toward zero (the
C conversion); NaN and infinities cannot reach this function from marshalled
data because the encoder rejects them, and are mapped to 0 here. -/
def cfNumberToInt64 : CFNumberVal → Int
  | .sint64 v => v
  | .float64 (.finite q) => ratTruncToInt q
  | .float64 .nan => 0
  | .float64 (.inf _) => 0

/-- Model of utils.go convertCFNumberToUInt32: the SInt64 read of the number,
cast to uint32 (low 32 bits). -/
def cfNumberToUInt32 (n : CFNumberVal) : Nat := uint32OfInt64 (cfNumberToInt64 n)

/-- Model of utils.go convertCFNumberToFloat64: CFNumberGetValue with the
Double type; an SInt64-typed number is converted to double (modelled exactly,
which is faithful for the magnitudes this development constructs). -/
def cfNumberToFloat64 : CFNumberVal → GoFloat
  | .sint64 v => .finite (v : Rat)
  | .float64 f => f

/-- Model of utils.go convertStringToCFString: CFStringCreateWithBytes with
the UTF-8 encoding returns NULL when the bytes are not valid UTF-8 — the
source comments "convertStringToCFString may return nil if the input string is
not a valid UTF-8 string". -/
def convertStringToCFString (bs : List UInt8) : Option CFValue :=
  if utf8Valid bs then some (.string bs) else none

/-- Model of utils.go convertCFStringToString: the UTF-8 bytes of the CFString
become the bytes of the Go string. -/
def convertCFStringToString (utf8 : List UInt8) : List UInt8 := utf8

/-- Model of utils.go convertBytesToCFData. -/
def convertBytesToCFData (l : List UInt8) : CFValue := .data l

/-- Model of utils.go convertCFDataToBytes. -/
def convertCFDataToBytes (l : List UInt8) : List UInt8 := l

/-- Model of utils.go convertTimeToCFDate: the Unix nanoseconds are truncated
to milliseconds (Go integer division truncates toward zero) and stored; the
intermediate double absolute-time representation is modelled exactly. -/
def convertTimeToCFDate (unixNano : Int) : CFValue := .date (intQuotT unixNano 1000000)

/-- Model of utils.go convertCFDateToTime: the date rounds back to the stored
millisecond count, i.e. time.Unix(ms / 1000, (ms % 1000) * 1e6). -/
def convertCFDateToTime (unixMillis : Int) : GoValue := .time (unixMillis * 1000000)

/-- Splitting a character list at commas (an executable stand-in for the
comma splitting of the tag file). -/
def splitComma : List Char → List (List Char)
  | [] => [[]]
  | c :: rest =>
    match splitComma rest with
    | [] => [[c]]
    | g :: gs => if c = ',' then [] :: g :: gs else (c :: g) :: gs

/-- Modelled from the spec: the tag-parsing helpers (parseTag and
tagOptions.Contains, the encoding/json-derived tag file) are not among the
provided sources.  Per the spec, a plist tag is "the key name, followed by an
optional comma and options"; parseTag yields the part before the first comma
as the name. -/
def parseTagName (tv : String) : String := String.mk ((splitComma tv.data).headD [])

/-- Modelled from the spec: tagOptions.Contains checks whether one of the
comma-separated options after the name equals the given option. -/
def tagHasOption (tv : String) (opt : String) : Bool :=
  (((splitComma tv.data).drop 1).map String.mk).contains opt

/-- Model of Go unicode.IsLetter; agrees on ASCII, which covers every tag name
in this development. -/
def goIsLetter (c : Char) : Bool := c.isAlpha

/-- Model of Go unicode.IsDigit; agrees on ASCII. -/
def goIsDigit (c : Char) : Bool := c.isDigit

/-- The punctuation set tested by isValidName (convert.go). -/
def reservedPunct : String := "!#$%&()*+-./:<=>?@[]^_\x7b|\x7d~"

/-- Model of convert.go isValidName: the empty name is invalid, and a name is
rejected exactly when it contains a character of the punctuation set (such a
character is never a letter or digit, so the inner test always fails for
it). -/
def isValidName (name : String) : Bool :=
  name ≠ "" && name.data.all fun c =>
    !(reservedPunct.data.contains c) || (goIsLetter c || goIsDigit c)

/-- Pre-parsed encoding information for one struct field (convert.go
encodeField): field index, exposed name, omit-empty flag. -/
structure EncodeField where
  i : Nat
  name : String
  omitEmpty : Bool

/-- The loop body of convert.go encodeFields, iterating declared fields in
order with their indices.  The process-lifetime cache around it is pure
memoization and does not change the computed value. -/
def encodeFieldsGo : Nat → List FieldDecl → List EncodeField
  | _, [] => []
  | i, f :: rest =>
    if !f.exported then encodeFieldsGo (i + 1) rest
    else if f.anonymous then encodeFieldsGo (i + 1) rest
    else if f.tag == "" then ⟨i, f.name, false⟩ :: encodeFieldsGo (i + 1) rest
    else if f.tag == "-" then encodeFieldsGo (i + 1) rest
    else
      let nm := parseTagName f.tag
      let name := if isValidName nm then nm else f.name
      ⟨i, name, tagHasOption f.tag "omitempty"⟩ :: encodeFieldsGo (i + 1) rest

/-- Model of convert.go encodeFields. -/
def encodeFields (fields : List FieldDecl) : List EncodeField := encodeFieldsGo 0 fields

/-- Model of convert.go isEmptyValue (lifted from encoding/json). -/
def isEmptyValue : GoValue → Bool
  | .array _ elems => elems.length == 0
  | .map _ _ entries => entries.length == 0
  | .slice _ _ elems => elems.length == 0
  | .bytes _ l => l.length == 0
  | .string bs => bs.length == 0
  | .bool b => !b
  | .int _ v => v == 0
  | .uint _ v => v == 0
  | .float _ f => f == .finite 0
  | .nilIface => true
  | .nilPtr _ => true
  | .ptr _ _ => false
  | _ => false

/-- Decimal text of a float for error strings (strconv.FormatFloat): the
special values render as Go prints them; the finite case stands for the
value's decimal text (its exact strconv spelling is not modelled — no claim
inspects it, only the NaN/Inf spellings are reachable in marshal errors). -/
def formatFloatG : GoFloat → String
  | .nan => "NaN"
  | .inf true => "+Inf"
  | .inf false => "-Inf"
  | .finite q => toString q

/-- The value of field number i of a struct (reflect Value.Field(i)); the
fallback is unreachable because encodeFields and matchField only produce
in-range indices. -/
def structFieldValue (flds : List (FieldDecl × GoValue)) (i : Nat) : GoValue :=
  (((flds.get? i).map Prod.snd).getD .nilIface)

mutual
/-- Model of utils.go convertValueToCFType (the "dumb conversion routine"):
kind-directed conversion of a Go value to a CF object.  Notes kept faithful to
the source: there is no case for uint64, nor for uint/uintptr of 64 bits (the
in-case return is guarded by Bits() < 64), nor for pointers, nor for structs
other than time.Time — all of these fall through to the final
UnsupportedTypeError; NaN and infinite floats are UnsupportedValueError;
interface indirections are stored unwrapped in this model, so the nil-interface
case is the only interface case.  The byte-array corner ([n]byte, whose
interface type assertion would panic in the source) is not modelled; no claim
exercises it. -/
def convertValueToCFType : GoValue → Except PErr CFValue
  | .bool b => .ok (convertBoolToCFBoolean b)
  | .int _ v => .ok (convertInt64ToCFNumber v)
  | .uint k v =>
    match k with
    | .u8 | .u16 | .u32 => .ok (convertUInt32ToCFNumber (v % 4294967296))
    | .u64 => .error (.unsupportedType "uint64")
    | .uptr bits =>
      if bits < 64 then .ok (convertUInt32ToCFNumber (v % 4294967296))
      else .error (.unsupportedType "uint")
  | .float _ f =>
    if f.isInf || f.isNaN then .error (.unsupportedValue (formatFloatG f))
    else .ok (convertFloat64ToCFNumber f)
  | .string bs =>
    match convertStringToCFString bs with
    | none => .error .stringConv
    | some s => .ok s
  | .time ns => .ok (convertTimeToCFDate ns)
  | .struct _ => .error (.unsupportedType "struct")
  | .bytes _ l => .ok (convertBytesToCFData l)
  | .slice _ _ elems => convertListToCFArray elems
  | .array _ elems => convertListToCFArray elems
  | .map _ _ entries => convertEntriesToCFDictionary entries
  | .nilIface => .error (.unsupportedValue "nil interface")
  | .ptr _ _ => .error (.unsupportedType "ptr")
  | .nilPtr _ => .error (.unsupportedType "ptr")

/-- Model of utils.go convertSliceToCFArray: elementwise conversion, aborting
on the first element error. -/
def convertListToCFArray (l : List GoValue) : Except PErr CFValue :=
  match convertListElems l with
  | .error e => .error e
  | .ok elems => .ok (.array elems)

/-- Elementwise conversion loop of convertSliceToCFArray. -/
def convertListElems : List GoValue → Except PErr (List CFValue)
  | [] => .ok []
  | v :: rest =>
    match convertValueToCFType v with
    | .error e => .error e
    | .ok cf =>
      match convertListElems rest with
      | .error e => .error e
      | .ok cfs => .ok (cf :: cfs)

/-- Model of utils.go convertMapToCFDictionary: keys are converted with
convertStringToCFString (failing with the string-conversion error when
invalid), values with convertValueToCFType.  Map keys are strings by
representation, matching the key-kind check of the helper. -/
def convertEntriesToCFDictionary (entries : List (List UInt8 × GoValue)) : Except PErr CFValue :=
  match convertEntriesElems entries with
  | .error e => .error e
  | .ok es => .ok (.dict es)

/-- Entrywise conversion loop of convertMapToCFDictionary. -/
def convertEntriesElems : List (List UInt8 × GoValue) → Except PErr (List (List UInt8 × CFValue))
  | [] => .ok []
  | (k, v) :: rest =>
    match convertStringToCFString k with
    | none => .error .stringConv
    | some _ =>
      match convertValueToCFType v with
      | .error e => .error e
      | .ok cf =>
        match convertEntriesElems rest with
        | .error e => .error e
        | .ok es => .ok ((k, cf) :: es)
end

mutual
/-- Model of convert.go marshalValue.  Nil pointers and nil interfaces are
unsupported values; no type of this model implements the Marshaler interface,
so the custom-marshal hook never fires; []byte becomes CFData; slices, arrays,
maps and structs are handled by the helpers that recurse through marshalValue;
pointers recurse on the pointee; everything else goes to the dumb conversion
routine. -/
def marshalValue : GoValue → Except PErr CFValue
  | .nilPtr _ => .error (.unsupportedValue "nil pointer")
  | .nilIface => .error (.unsupportedValue "nil interface")
  | .bytes _ l => .ok (convertBytesToCFData l)
  | .slice _ _ elems =>
    match marshalListElems elems with
    | .error e => .error e
    | .ok es => .ok (.array es)
  | .array _ elems =>
    match marshalListElems elems with
    | .error e => .error e
    | .ok es => .ok (.array es)
  | .map _ _ entries =>
    match marshalMapEntries entries with
    | .error e => .error e
    | .ok es => .ok (.dict es)
  | .time ns => .ok (convertTimeToCFDate ns)
  | .struct flds =>
    match marshalStructGo flds with
    | .error e => .error e
    | .ok es => .ok (.dict es)
  | .ptr _ v => marshalValue v
  | v => convertValueToCFType v


/-- Element loop of convertSliceToCFArrayHelper with marshalValue as the
helper. -/
def marshalListElems : List GoValue → Except PErr (List CFValue)
  | [] => .ok []
  | v :: rest =>
    match marshalValue v with
    | .error e => .error e
    | .ok cf =>
      match marshalListElems rest with
      | .error e => .error e
      | .ok cfs => .ok (cf :: cfs)


/-- Entry loop of convertMapToCFDictionaryHelper with marshalValue as the
helper. -/
def marshalMapEntries : List (List UInt8 × GoValue) → Except PErr (List (List UInt8 × CFValue))
  | [] => .ok []
  | (k, v) :: rest =>
    match convertStringToCFString k with
    | none => .error .stringConv
    | some _ =>
      match marshalValue v with
      | .error e => .error e
      | .ok cf =>
        match marshalMapEntries rest with
        | .error e => .error e
        | .ok es => .ok ((k, cf) :: es)


/-- Model of convert.go marshalStruct.  The source walks the precomputed
encodeFields of the struct type and fetches each field value by its index;
since encodeFields is an order-preserving filter of the declared fields, this
model fuses the two loops into one pass over the (declaration, value) pairs,
applying exactly the encodeFields logic (skip unexported, anonymous and
"-"-tagged fields; exposed name and omit-empty flag from the tag) to each
field before the marshalStruct logic (skip empty omit-empty fields, convert
the exposed name with convertStringToCFString, marshal the value); the fusion
keeps the recursion structural and produces the same entry list in the same
order. -/
def marshalStructGo : List (FieldDecl × GoValue) → Except PErr (List (List UInt8 × CFValue))
  | [] => .ok []
  | (f, v) :: rest =>
    if !f.exported then marshalStructGo rest
    else if f.anonymous then marshalStructGo rest
    else if f.tag == "-" then marshalStructGo rest
    else
      let name := if f.tag == "" then f.name
        else if isValidName (parseTagName f.tag) then parseTagName f.tag else f.name
      let omitEmpty := if f.tag == "" then false else tagHasOption f.tag "omitempty"
      if omitEmpty && isEmptyValue v then marshalStructGo rest
      else
        match convertStringToCFString (strBytes name) with
        | none => .error .stringConv
        | some _ =>
          match marshalValue v with
          | .error e => .error e
          | .ok cf =>
            match marshalStructGo rest with
            | .error e => .error e
            | .ok es => .ok ((strBytes name, cf) :: es)

end

/-- Serialized plist bytes at the codec boundary: either the serialization of
a value tree in some format, or bytes no format codec accepts. -/
inductive PlistData where
  | wellFormed (value : CFValue) (format : Format)
  | malformed

/-- Modelled from the spec: the Format Codec (CoreFoundation
CFPropertyListCreateData, reached through plist.go cfPropertyListCreateData)
is a boundary component not implemented in this repository; per the spec it
maps a value tree and a format selector to bytes or a structured failure.  The
model records the tree and the format in the produced bytes. -/
def cfPropertyListCreateData (v : CFValue) (format : Format) : Except PErr PlistData :=
  .ok (.wellFormed v format)

/-- Modelled from the spec: the Format Codec direction used by Unmarshal
(CoreFoundation CFPropertyListCreateWithData, reached through plist.go
cfPropertyListCreateWithData): bytes map to a value tree plus the detected
format, or to a structured failure when no format accepts them. -/
def cfPropertyListCreateWithData : PlistData → Except PErr (CFValue × Format)
  | .wellFormed v f => .ok (v, f)
  | .malformed => .error .cfError

/-- Model of convert.go Marshal: marshal the value to a CF object, then hand
it to the format codec. -/
def Marshal (v : GoValue) (format : Format) : Except PErr PlistData :=
  match marshalValue v with
  | .error e => .error e
  | .ok cfObj => cfPropertyListCreateData cfObj format

mutual
/-- Model of the test helper standardize (utils test source): converts any
integer value that fits in an int64 to int64 (int64 itself is left as is),
truncates integral floats to int64, nils out non-nil empty slices, truncates
times to whole seconds, and recurses through interface-element slices and
interface-value maps. -/
def standardize : GoValue → GoValue × Bool
  | .uint k u =>
    if u ≤ 9223372036854775807 then (.int .i64 (u : Int), true) else (.uint k u, false)
  | .int .i64 v => (.int .i64 v, false)
  | .int _ v => (.int .i64 v, true)
  | .float bits f =>
    match f with
    | .finite q => if q.den = 1 then (.int .i64 q.num, true) else (.float bits (.finite q), false)
    | other => (.float bits other, false)
  | .time ns =>
    let sec := Int.fdiv ns 1000000000
    (.time (sec * 1000000000), decide (ns ≠ sec * 1000000000))
  | .slice ety nl elems =>
    if !nl && elems.length == 0 then (.slice ety true [], true)
    else
      match ety with
      | .ifaceTy =>
        match standardizeList elems with
        | (es, ch) => (.slice ety nl es, ch)
      | _ => (.slice ety nl elems, false)
  | .bytes nl l =>
    if !nl && l.length == 0 then (.bytes true [], true) else (.bytes nl l, false)
  | .map ety nl entries =>
    match ety with
    | .ifaceTy =>
      match standardizeEntries entries with
      | (es, ch) => (.map ety nl es, ch)
    | _ => (.map ety nl entries, false)
  | v => (v, false)

/-- Elementwise standardize over the elements of an interface slice. -/
def standardizeList : List GoValue → List GoValue × Bool
  | [] => ([], false)
  | v :: rest =>
    match standardize v, standardizeList rest with
    | (v2, c1), (r2, c2) => (v2 :: r2, c1 || c2)

/-- Valuewise standardize over the entries of a string-keyed interface map. -/
def standardizeEntries : List (List UInt8 × GoValue) → List (List UInt8 × GoValue) × Bool
  | [] => ([], false)
  | (k, v) :: rest =>
    match standardize v, standardizeEntries rest with
    | (v2, c1), (r2, c2) => ((k, v2) :: r2, c1 || c2)
end

mutual
/-- The zero value of a Go type (reflect.Zero). -/
def zeroValue : GoTy → GoValue
  | .boolTy => .bool false
  | .intTy k => .int k 0
  | .uintTy k => .uint k 0
  | .floatTy bits => .float bits (.finite 0)
  | .stringTy => .string []
  | .bytesTy => .bytes true []
  | .timeTy => .time 0
  | .sliceTy e => .slice e true []
  | .arrayTy n e => .array e (List.replicate n (zeroValue e))
  | .mapTy _ e => .map e true []
  | .structTy fields => .struct (zeroFields fields)
  | .ptrTy e => .nilPtr e
  | .ifaceTy => .nilIface

/-- Zero values of a list of struct fields. -/
def zeroFields : List FieldDecl → List (FieldDecl × GoValue)
  | [] => []
  | .mk n t e a ty :: rest => (.mk n t e a ty, zeroValue ty) :: zeroFields rest
end

/-- The dynamic type of a Go value (reflect Value.Type / Value.Elem().Type()
of an interface content).  The map key type is the string type, the only key
type this model represents. -/
def dynTy : GoValue → GoTy
  | .bool _ => .boolTy
  | .int k _ => .intTy k
  | .uint k _ => .uintTy k
  | .float bits _ => .floatTy bits
  | .string _ => .stringTy
  | .bytes _ _ => .bytesTy
  | .time _ => .timeTy
  | .slice e _ _ => .sliceTy e
  | .array e elems => .arrayTy elems.length e
  | .map e _ _ => .mapTy .stringTy e
  | .struct flds => .structTy (flds.map Prod.fst)
  | .ptr e _ => .ptrTy e
  | .nilPtr e => .ptrTy e
  | .nilIface => .ifaceTy

/-- Model of convert.go cfTypeMap: the default Go type chosen for each CF type
when decoding into a nil empty interface.  Every CFNumber maps to int64. -/
def cfTypeMap : CFValue → GoTy
  | .array _ => .sliceTy .ifaceTy
  | .boolean _ => .boolTy
  | .data _ => .bytesTy
  | .date _ => .timeTy
  | .dict _ => .mapTy .stringTy .ifaceTy
  | .number _ => .intTy .i64
  | .string _ => .stringTy

/-- Model of convert.go cfTypeNames. -/
def cfTypeName : CFValue → String
  | .array _ => "CFArray"
  | .boolean _ => "CFBoolean"
  | .data _ => "CFData"
  | .date _ => "CFDate"
  | .dict _ => "CFDictionary"
  | .number _ => "CFNumber"
  | .string _ => "CFString"

/-- Model of convert.go unmarshalState.recordError: only the first recoverable
error is kept. -/
def recordError (st : Option PErr) (e : PErr) : Option PErr :=
  match st with
  | none => some e
  | some _ => st

/-- Model of reflect Value.OverflowInt against a target of the given kind. -/
def overflowInt (k : IntKind) (i : Int) : Bool :=
  decide (i < -(2 ^ (k.bits - 1))) || decide ((2 : Int) ^ (k.bits - 1) - 1 < i)

/-- Model of reflect Value.OverflowUint against a target of the given kind. -/
def overflowUint (k : UintKind) (u : Nat) : Bool := decide (2 ^ k.bits ≤ u)

/-- The largest finite float32 value, exactly: (2 - 2^-23) * 2^127. -/
def maxFloat32Q : Rat := ((340282346638528859811704183484516925440 : Int) : Rat)

/-- Model of reflect Value.OverflowFloat: only float32 targets can overflow a
float64 input. -/
def overflowFloat (bits : Nat) (f : GoFloat) : Bool :=
  if bits == 32 then
    match f with
    | .finite q => decide (maxFloat32Q < |q|)
    | .inf _ => true
    | .nan => false
  else false

/-- The field-matching loop of convert.go unmarshalState.unmarshalValue for
dictionary-into-struct decoding, carried out over the declared fields with
their indices.  Fields tagged "-" and anonymous fields are skipped; an exact
match of the parsed tag name against the key returns immediately; an exact
declared-name match overwrites the current candidate but keeps scanning; a
case-insensitive declared-name match is taken only when no candidate has been
found yet. -/
def matchFieldGo (key : List UInt8) : List FieldDecl → Nat → Option (Nat × FieldDecl) →
    Option (Nat × FieldDecl)
  | [], _, acc => acc
  | sf :: rest, i, acc =>
    if sf.tag == "-" then matchFieldGo key rest (i + 1) acc
    else if sf.anonymous then matchFieldGo key rest (i + 1) acc
    else if strBytes (parseTagName sf.tag) == key then some (i, sf)
    else
      let acc1 := if strBytes sf.name == key then some (i, sf) else acc
      let acc2 := if acc1.isNone && asciiEqualFold (strBytes sf.name) key then some (i, sf) else acc1
      matchFieldGo key rest (i + 1) acc2

/-- Find the struct field a dictionary key decodes into, with its index. -/
def matchField (fields : List FieldDecl) (key : List UInt8) : Option (Nat × FieldDecl) :=
  matchFieldGo key fields 0 none

/-- Insertion into the association-list model of a Go map (SetMapIndex):
replace the entry of an existing key, otherwise append. -/
def insertEntry : List (List UInt8 × GoValue) → List UInt8 → GoValue →
    List (List UInt8 × GoValue)
  | [], k, v => [(k, v)]
  | (k0, v0) :: rest, k, v =>
    if k0 == k then (k, v) :: rest else (k0, v0) :: insertEntry rest k v

/-- Extraction of a byte from a decoded uint8 element (used when a CFArray is
decoded elementwise into a []byte target); other shapes cannot occur for
well-typed targets. -/
def goValueToByte : GoValue → UInt8
  | .uint _ v => UInt8.ofNat v
  | _ => 0

/-- The pointee of a pointer slot, allocating a zero value when the pointer is
nil (the reflect.New branch of the pointer case). -/
def derefPointee (e : GoTy) : GoValue → GoValue
  | .ptr _ v => v
  | _ => zeroValue e

/-- Whether the declared target is the empty-interface type (the vSetter of
the source is then an interface and scalar stores use the default 64-bit
kinds). -/
def isIfaceTy : GoTy → Bool
  | .ifaceTy => true
  | _ => false

/-- The effective type dispatched on after interface handling: for a nil empty
interface the representation type comes from cfTypeMap (every CF type is in
the map and assignable to the empty interface, so the UnknownCFTypeError and
not-assignable branches of the source cannot fire there); for an interface
holding a value, its dynamic type; otherwise the declared type itself. -/
def effTy (cf : CFValue) (ty : GoTy) (cur : GoValue) : GoTy :=
  match ty with
  | .ifaceTy =>
    match cur with
    | .nilIface => cfTypeMap cf
    | v => dynTy v
  | t => t

/-- The value standing in the slot when dispatch begins: a nil empty interface
has been pre-set to the zero value of the chosen representation type
(vSetter.Set(reflect.Zero(typ)) in the source); otherwise the current
value. -/
def effSlot (cf : CFValue) (ty : GoTy) (cur : GoValue) : GoValue :=
  match ty with
  | .ifaceTy =>
    match cur with
    | .nilIface => zeroValue (cfTypeMap cf)
    | v => v
  | _ => cur

/-- The element list of an array value (the fallback is unreachable for
well-typed slots). -/
def arrayElemsOf (n : Nat) (e : GoTy) : GoValue → List GoValue
  | .array _ l => l
  | _ => List.replicate n (zeroValue e)

/-- The current entries of a map slot; a nil map is replaced by a fresh empty
one (reflect.MakeMap). -/
def mapCurOf : GoValue → List (List UInt8 × GoValue)
  | .map _ nl es => if nl then [] else es
  | _ => []

/-- The field values of a struct slot (the fallback is unreachable for
well-typed slots). -/
def structFieldsOf : GoValue → List (FieldDecl × GoValue)
  | .struct fs => fs
  | _ => []

/-- Whether a Go string value is assignable to the given map key type
(stringType.AssignableTo(vType.Key()) in the source). -/
def stringAssignableTo : GoTy → Bool
  | .stringTy => true
  | .ifaceTy => true
  | _ => false

/-- The CFBoolean case of unmarshalState.unmarshalValue. -/
def unmarshalBoolInto (b : Bool) (ety : GoTy) (slot : GoValue) (st : Option PErr) :
    Except PErr (GoValue × Option PErr) :=
  match ety with
  | .boolTy => .ok (.bool (convertCFBooleanToBool b), st)
  | _ => .ok (slot, recordError st (.unmarshalType "CFBoolean" ety))

/-- The CFData case of unmarshalState.unmarshalValue: the target must be the
byte-slice type (byteSliceType.AssignableTo(vType)). -/
def unmarshalDataInto (l : List UInt8) (ety : GoTy) (slot : GoValue) (st : Option PErr) :
    Except PErr (GoValue × Option PErr) :=
  match ety with
  | .bytesTy => .ok (.bytes false (convertCFDataToBytes l), st)
  | _ => .ok (slot, recordError st (.unmarshalType "CFData" ety))

/-- The CFDate case of unmarshalState.unmarshalValue.  The source sets the
converted time but is missing a final return in this case, so control falls
out of the type switch into the trailing UnknownCFTypeError return: a
successful date decode is a fatal unknown-type error. -/
def unmarshalDateInto (_ms : Int) (ety : GoTy) (slot : GoValue) (st : Option PErr) :
    Except PErr (GoValue × Option PErr) :=
  match ety with
  | .timeTy => .error (.unknownCFType "CFDate")
  | _ => .ok (slot, recordError st (.unmarshalType "CFDate" ety))

/-- The CFNumber case of unmarshalState.unmarshalValue: width-checked
conversion using the reflect Overflow predicates.  Signed targets read the
number through convertCFNumberToInt64; unsigned targets read it through
convertCFNumberToUInt32 (so only the low 32 bits survive); float targets read
it through convertCFNumberToFloat64.  When the slot is an interface the store
goes through reflect.ValueOf, producing the default 64-bit kind. -/
def unmarshalNumberInto (n : CFNumberVal) (ety : GoTy) (slot : GoValue) (ifaceSlot : Bool)
    (st : Option PErr) : Except PErr (GoValue × Option PErr) :=
  match ety with
  | .intTy k =>
    let i := cfNumberToInt64 n
    if overflowInt k i then
      .ok (slot, recordError st (.unmarshalType ("CFNumber " ++ toString i) ety))
    else if ifaceSlot then .ok (.int .i64 i, st)
    else .ok (.int k i, st)
  | .uintTy k =>
    let u := cfNumberToUInt32 n
    if overflowUint k u then
      .ok (slot, recordError st (.unmarshalType ("CFNumber " ++ toString u) ety))
    else if ifaceSlot then .ok (.uint .u64 u, st)
    else .ok (.uint k u, st)
  | .floatTy bits =>
    let f := cfNumberToFloat64 n
    if overflowFloat bits f then
      .ok (slot, recordError st (.unmarshalType ("CFNumber " ++ formatFloatG f) ety))
    else if ifaceSlot then .ok (.float 64 f, st)
    else .ok (.float bits f, st)
  | _ => .ok (slot, recordError st (.unmarshalType "CFNumber" ety))

/-- The CFString case of unmarshalState.unmarshalValue. -/
def unmarshalStringInto (bs : List UInt8) (ety : GoTy) (slot : GoValue) (st : Option PErr) :
    Except PErr (GoValue × Option PErr) :=
  match ety with
  | .stringTy => .ok (.string (convertCFStringToString bs), st)
  | _ => .ok (slot, recordError st (.unmarshalType "CFString" ety))

/-- The non-pointer type at the end of a pointer spine. -/
def stripPtrTy : GoTy → GoTy
  | .ptrTy e => stripPtrTy e
  | t => t

/-- The current value at the end of a pointer spine: each level is
dereferenced, a nil pointer contributing a fresh zero pointee as reflect.New
does (see derefPointee). -/
def stripPtrVal : GoTy → GoValue → GoValue
  | .ptrTy e, cur => stripPtrVal e (derefPointee e cur)
  | _, cur => cur

/-- Rebuild a pointer spine around a decoded pointee. -/
def rewrapPtr : GoTy → GoValue → GoValue
  | .ptrTy e, v => .ptr e (rewrapPtr e v)
  | _, v => v

mutual
/-- Model of the non-pointer body of convert.go unmarshalState.unmarshalValue:
interface handling (effTy, effSlot), then dispatch on the CF type of the
object.  Recoverable mismatches go through recordError and leave the slot as
it stands. -/
def unmarshalCore (cf : CFValue) (ty : GoTy) (cur : GoValue) (st : Option PErr) :
    Except PErr (GoValue × Option PErr) :=
  match cf with
  | .array elems => unmarshalArrayInto elems (effTy cf ty cur) (effSlot cf ty cur) st
  | .boolean b => unmarshalBoolInto b (effTy cf ty cur) (effSlot cf ty cur) st
  | .data l => unmarshalDataInto l (effTy cf ty cur) (effSlot cf ty cur) st
  | .date ms => unmarshalDateInto ms (effTy cf ty cur) (effSlot cf ty cur) st
  | .dict entries => unmarshalDictInto entries (effTy cf ty cur) (effSlot cf ty cur) st
  | .number n => unmarshalNumberInto n (effTy cf ty cur) (effSlot cf ty cur) (isIfaceTy ty) st
  | .string bs => unmarshalStringInto bs (effTy cf ty cur) (effSlot cf ty cur) st

/-- The CFArray case of unmarshalState.unmarshalValue: the target must be of
slice or array kind.  A slice target is replaced by a fresh zeroed slice of
the element count at the first element (so an empty source array leaves the
slot untouched); an array target decodes positionally in place.  A []byte
target is of slice kind and decodes elementwise like any slice. -/
def unmarshalArrayInto (elems : List CFValue) (ety : GoTy) (slot : GoValue)
    (st : Option PErr) : Except PErr (GoValue × Option PErr) :=
  match ety with
  | .sliceTy e =>
    if elems.isEmpty then .ok (slot, st)
    else
      match unmarshalSliceElems elems e st with
      | .error err => .error err
      | .ok (vs, st2) => .ok (.slice e false vs, st2)
  | .bytesTy =>
    if elems.isEmpty then .ok (slot, st)
    else
      match unmarshalSliceElems elems (.uintTy .u8) st with
      | .error err => .error err
      | .ok (vs, st2) => .ok (.bytes false (vs.map goValueToByte), st2)
  | .arrayTy n e =>
    match unmarshalArrayElems elems e (arrayElemsOf n e slot) st with
    | .error err => .error err
    | .ok (vs, st2) => .ok (.array e vs, st2)
  | _ => .ok (slot, recordError st (.unmarshalType "CFArray" ety))

/-- The CFDictionary case of unmarshalState.unmarshalValue: a map target has
its key type checked against string, is allocated when nil, and receives each
entry decoded into a fresh zero element; a struct target decodes by field
matching; anything else is a recoverable mismatch. -/
def unmarshalDictInto (entries : List (List UInt8 × CFValue)) (ety : GoTy) (slot : GoValue)
    (st : Option PErr) : Except PErr (GoValue × Option PErr) :=
  match ety with
  | .mapTy kty vty =>
    if !stringAssignableTo kty then
      .ok (slot, recordError st (.unmarshalType "CFString" kty))
    else
      match unmarshalMapEntries entries vty (mapCurOf slot) st with
      | .error err => .error err
      | .ok (es, st2) => .ok (.map vty false es, st2)
  | .structTy _ =>
    match unmarshalStructEntries entries (structFieldsOf slot) st with
    | .error err => .error err
    | .ok (fs2, st2) => .ok (.struct fs2, st2)
  | _ => .ok (slot, recordError st (.unmarshalType "CFDictionary" ety))

/-- Model of convertCFArrayToSliceHelper over a slice target: each element
decodes into a fresh zero slot of the element type. -/
def unmarshalSliceElems (elems : List CFValue) (e : GoTy) (st : Option PErr) :
    Except PErr (List GoValue × Option PErr) :=
  match elems with
  | [] => .ok ([], st)
  | c :: rest =>
    match unmarshalCore c (stripPtrTy e) (stripPtrVal e (zeroValue e)) st with
    | .error err => .error err
    | .ok (v, st1) =>
      match unmarshalSliceElems rest e st1 with
      | .error err => .error err
      | .ok (vs, st2) => .ok (rewrapPtr e v :: vs, st2)

/-- Model of convertCFArrayToSliceHelper over a fixed-length array target:
elements decode positionally into the existing array, excess source elements
are dropped once the target length is reached, and positions beyond the
source count keep their prior values. -/
def unmarshalArrayElems (elems : List CFValue) (e : GoTy) (cur : List GoValue)
    (st : Option PErr) : Except PErr (List GoValue × Option PErr) :=
  match elems, cur with
  | [], rest => .ok (rest, st)
  | _ :: _, [] => .ok ([], st)
  | c :: crest, p :: prest =>
    match unmarshalCore c (stripPtrTy e) (stripPtrVal e p) st with
    | .error err => .error err
    | .ok (v, st1) =>
      match unmarshalArrayElems crest e prest st1 with
      | .error err => .error err
      | .ok (vs, st2) => .ok (rewrapPtr e v :: vs, st2)

/-- Model of convertCFDictionaryToMapHelper over a map target: each value is
decoded into a freshly allocated zero element (reflect.New plus the pointer
case of unmarshalValue) and inserted under its key. -/
def unmarshalMapEntries (entries : List (List UInt8 × CFValue)) (vty : GoTy)
    (acc : List (List UInt8 × GoValue)) (st : Option PErr) :
    Except PErr (List (List UInt8 × GoValue) × Option PErr) :=
  match entries with
  | [] => .ok (acc, st)
  | (k, cfv) :: rest =>
    match unmarshalCore cfv (stripPtrTy vty) (stripPtrVal vty (zeroValue vty)) st with
    | .error err => .error err
    | .ok (v, st1) => unmarshalMapEntries rest vty (insertEntry acc k (rewrapPtr vty v)) st1

/-- Model of convertCFDictionaryToMapHelper over a struct target: each key is
matched against the fields; a match on an unexported field aborts the whole
decode with an UnmarshalFieldError; a match on an exported field decodes the
value into that field in place; an unmatched key is dropped. -/
def unmarshalStructEntries (entries : List (List UInt8 × CFValue))
    (flds : List (FieldDecl × GoValue)) (st : Option PErr) :
    Except PErr (List (FieldDecl × GoValue) × Option PErr) :=
  match entries with
  | [] => .ok (flds, st)
  | (k, cfv) :: rest =>
    match matchField (flds.map Prod.fst) k with
    | none => unmarshalStructEntries rest flds st
    | some (i, f) =>
      if !f.exported then .error (.unmarshalField k f.name)
      else
        match unmarshalCore cfv (stripPtrTy f.ty) (stripPtrVal f.ty (structFieldValue flds i)) st with
        | .error err => .error err
        | .ok (v2, st1) => unmarshalStructEntries rest (flds.set i (f, rewrapPtr f.ty v2)) st1
end

/-- Model of convert.go unmarshalState.unmarshalValue: no type of this model
implements the Unmarshaler interface, so the custom-unmarshal hook never
fires; a nil pointer target is allocated (reflect.New) and the decode
recurses on the pointee.  The source strips one pointer layer per recursive
call; this definition strips the whole pointer spine at once (stripPtrTy,
stripPtrVal), runs the non-pointer body, and rebuilds the spine (rewrapPtr),
which computes the same function. -/
def unmarshalPtr (cf : CFValue) (ty : GoTy) (cur : GoValue) (st : Option PErr) :
    Except PErr (GoValue × Option PErr) :=
  match unmarshalCore cf (stripPtrTy ty) (stripPtrVal ty cur) st with
  | .error err => .error err
  | .ok (v, st2) => .ok (rewrapPtr ty v, st2)

/-- The second argument of Unmarshal as the reflect checks see it: nil, a
non-pointer value, a typed nil pointer, or a valid pointer to a slot of the
given type currently holding the given value. -/
inductive UnmarshalArg where
  | nilArg
  | nonPtr (ty : GoTy) (v : GoValue)
  | nilPtrArg (ty : GoTy)
  | ptrArg (ty : GoTy) (cur : GoValue)

/-- The description InvalidUnmarshalError derives from reflect.TypeOf of the
argument. -/
def argTypeDesc : UnmarshalArg → String
  | .nilArg => "nil"
  | .nonPtr _ _ => "non-pointer"
  | .nilPtrArg _ => "nil pointer"
  | .ptrArg _ _ => "pointer"

/-- The observable outcome of Unmarshal: the returned format, the returned
error, and the final pointee of the target when the engine ran to completion
(none when the bytes failed to parse, the argument was invalid, or a fatal
error aborted the walk). -/
structure UnmarshalResult where
  format : Format
  err : Option PErr
  target : Option GoValue

/-- Model of convert.go Unmarshal: the bytes are handed to the format codec
first; only then is the argument checked to be a non-nil pointer (an invalid
argument yields InvalidUnmarshalError); finally the unmarshal engine runs with
a fresh error accumulator, a fatal error being returned directly and otherwise
the first recorded recoverable error. -/
def Unmarshal (data : PlistData) (arg : UnmarshalArg) : UnmarshalResult :=
  match cfPropertyListCreateWithData data with
  | .error e => ⟨⟨0⟩, some e, none⟩
  | .ok (cfObj, format) =>
    match arg with
    | .ptrArg ty cur =>
      match unmarshalPtr cfObj (.ptrTy ty) (.ptr ty cur) none with
      | .error err => ⟨format, some err, none⟩
      | .ok (v, st) =>
        let pointee := match v with
          | .ptr _ p => p
          | other => other
        ⟨format, st, some pointee⟩
    | bad => ⟨format, some (.invalidUnmarshal (argTypeDesc bad)), none⟩

/- Concrete types and values used by the claim theorems. -/

/-- The float 2.4 (the "n" value of the repository's interface-target
unmarshal test), exactly 12/5. -/
def ratTwoPointFour : Rat := ⟨12, 5, by norm_num, by norm_num⟩

/-- A struct type with two plain int fields X and Y (the best-effort decode
scenario). -/
def tyT6 : GoTy :=
  .structTy [.mk "X" "" true false (.intTy .iword), .mk "Y" "" true false (.intTy .iword)]

/-- The test type T: X string, Y int, and Z int tagged "-". -/
def tyT : GoTy :=
  .structTy [.mk "X" "" true false .stringTy, .mk "Y" "" true false (.intTy .iword),
             .mk "Z" "-" true false (.intTy .iword)]

/-- The test type tx, whose only field x is unexported. -/
def tyTx : GoTy := .structTy [.mk "x" "" false false (.intTy .iword)]

/-- A struct type with one anonymous (embedded) field. -/
def tyAnon : GoTy := .structTy [.mk "Emb" "" true true (.intTy .iword)]

/-- A struct type where the first field matches a key only case-insensitively
and the second field's tag names the key exactly. -/
def tyTagPrec : GoTy :=
  .structTy [.mk "MYKEY" "" true false (.intTy .iword), .mk "A" "myKey" true false (.intTy .iword)]

/-- A struct type with an exported int field A followed by an unexported
field x. -/
def tyTax : GoTy :=
  .structTy [.mk "A" "" true false (.intTy .iword), .mk "x" "" false false (.intTy .iword)]

/-- The Optionals struct of the omit-empty test, with the field values the
test sets: everything zero except Sw = "something" and the non-nil empty maps
Mr and Mo. -/
def optionalsFields : List (FieldDecl × GoValue) :=
  [(.mk "Sr" "sr" true false .stringTy, .string []),
   (.mk "So" "so,omitempty" true false .stringTy, .string []),
   (.mk "Sw" "-" true false .stringTy, .string (strBytes "something")),
   (.mk "Ir" "omitempty" true false (.intTy .iword), .int .iword 0),
   (.mk "Io" "io,omitempty" true false (.intTy .iword), .int .iword 0),
   (.mk "Slr" "slr,random" true false (.sliceTy .stringTy), .slice .stringTy true []),
   (.mk "Slo" "slo,omitempty" true false (.sliceTy .stringTy), .slice .stringTy true []),
   (.mk "Mr" "mr" true false (.mapTy .stringTy .ifaceTy), .map .ifaceTy false []),
   (.mk "Mo" ",omitempty" true false (.mapTy .stringTy .ifaceTy), .map .ifaceTy false [])]

/- Helper lemmas shared by the claim theorems. -/

theorem unmarshal_number_into_int (n : CFNumberVal) (k : IntKind) (c : Int) (format : Format) :
    Unmarshal (.wellFormed (.number n) format) (.ptrArg (.intTy k) (.int k c))
      = if overflowInt k (cfNumberToInt64 n)
        then ⟨format, some (.unmarshalType ("CFNumber " ++ toString (cfNumberToInt64 n)) (.intTy k)),
               some (.int k c)⟩
        else ⟨format, none, some (.int k (cfNumberToInt64 n))⟩ := by
  by_cases h : overflowInt k (cfNumberToInt64 n) <;>
    simp [Unmarshal, cfPropertyListCreateWithData, unmarshalPtr, unmarshalCore,
      stripPtrTy, stripPtrVal, rewrapPtr,
      derefPointee, effTy, effSlot, isIfaceTy, unmarshalNumberInto, recordError, h]

theorem unmarshal_number_into_uint (n : CFNumberVal) (k : UintKind) (c : Nat) (format : Format) :
    Unmarshal (.wellFormed (.number n) format) (.ptrArg (.uintTy k) (.uint k c))
      = if overflowUint k (cfNumberToUInt32 n)
        then ⟨format, some (.unmarshalType ("CFNumber " ++ toString (cfNumberToUInt32 n)) (.uintTy k)),
               some (.uint k c)⟩
        else ⟨format, none, some (.uint k (cfNumberToUInt32 n))⟩ := by
  by_cases h : overflowUint k (cfNumberToUInt32 n) <;>
    simp [Unmarshal, cfPropertyListCreateWithData, unmarshalPtr, unmarshalCore,
      stripPtrTy, stripPtrVal, rewrapPtr,
      derefPointee, effTy, effSlot, isIfaceTy, unmarshalNumberInto, recordError, h]

theorem matchFieldGo_break (key : List UInt8) (pre : List FieldDecl) (tf : FieldDecl)
    (post : List FieldDecl) (i : Nat) (acc : Option (Nat × FieldDecl))
    (htag : tf.tag ≠ "-") (hanon : tf.anonymous = false)
    (hkey : strBytes (parseTagName tf.tag) = key)
    (hpre : ∀ g ∈ pre, g.tag = "-" ∨ g.anonymous = true ∨ strBytes (parseTagName g.tag) ≠ key) :
    matchFieldGo key (pre ++ tf :: post) i acc = some (i + pre.length, tf) := by
  induction pre generalizing i acc with
  | nil => simp [matchFieldGo, htag, hanon, hkey]
  | cons g rest ih =>
    have hrest : ∀ x ∈ rest, x.tag = "-" ∨ x.anonymous = true ∨ strBytes (parseTagName x.tag) ≠ key :=
      fun x hx => hpre x (by simp [hx])
    have harith : i + 1 + rest.length = i + (g :: rest).length := by simp; omega
    rcases hpre g (by simp) with h1 | h2 | h3
    · rw [List.cons_append]
      rw [show matchFieldGo key (g :: (rest ++ tf :: post)) i acc
            = matchFieldGo key (rest ++ tf :: post) (i + 1) acc from by simp [matchFieldGo, h1]]
      rw [ih (i + 1) acc hrest, harith]
    · by_cases h1 : g.tag = "-"
      · rw [List.cons_append]
        rw [show matchFieldGo key (g :: (rest ++ tf :: post)) i acc
              = matchFieldGo key (rest ++ tf :: post) (i + 1) acc from by simp [matchFieldGo, h1]]
        rw [ih (i + 1) acc hrest, harith]
      · rw [List.cons_append]
        rw [show matchFieldGo key (g :: (rest ++ tf :: post)) i acc
              = matchFieldGo key (rest ++ tf :: post) (i + 1) acc from by simp [matchFieldGo, h1, h2]]
        rw [ih (i + 1) acc hrest, harith]
    · by_cases h1 : g.tag = "-"
      · rw [List.cons_append]
        rw [show matchFieldGo key (g :: (rest ++ tf :: post)) i acc
              = matchFieldGo key (rest ++ tf :: post) (i + 1) acc from by simp [matchFieldGo, h1]]
        rw [ih (i + 1) acc hrest, harith]
      · by_cases h2 : g.anonymous = true
        · rw [List.cons_append]
          rw [show matchFieldGo key (g :: (rest ++ tf :: post)) i acc
                = matchFieldGo key (rest ++ tf :: post) (i + 1) acc from by simp [matchFieldGo, h1, h2]]
          rw [ih (i + 1) acc hrest, harith]
        · rw [List.cons_append]
          rw [show matchFieldGo key (g :: (rest ++ tf :: post)) i acc
                = matchFieldGo key (rest ++ tf :: post) (i + 1)
                    (if (if strBytes g.name == key then some (i, g) else acc).isNone
                        && asciiEqualFold (strBytes g.name) key then some (i, g)
                     else if strBytes g.name == key then some (i, g) else acc) from by
            simp [matchFieldGo, h1, h2, h3]]
          rw [ih (i + 1) _ hrest, harith]

theorem matchFieldGo_invisible (key : List UInt8) (fields : List FieldDecl) :
    ∀ (i : Nat) (acc : Option (Nat × FieldDecl)),
      (∀ j g, acc = some (j, g) → g.tag ≠ "-" ∧ g.anonymous = false) →
      ∀ j g, matchFieldGo key fields i acc = some (j, g) →
        g.tag ≠ "-" ∧ g.anonymous = false := by
  induction fields with
  | nil =>
    intro i acc hacc j g h
    simp only [matchFieldGo] at h
    exact hacc j g h
  | cons sf rest ih =>
    intro i acc hacc j g h
    by_cases h1 : sf.tag = "-"
    · simp only [matchFieldGo, h1] at h
      simp at h
      exact ih (i + 1) acc hacc j g h
    · by_cases h2 : sf.anonymous = true
      · simp only [matchFieldGo] at h
        rw [if_neg (by simpa using h1)] at h
        rw [if_pos (by simpa using h2)] at h
        exact ih (i + 1) acc hacc j g h
      · by_cases h3 : strBytes (parseTagName sf.tag) = key
        · simp only [matchFieldGo] at h
          rw [if_neg (by simpa using h1)] at h
          rw [if_neg (by simpa using h2)] at h
          rw [if_pos (by simpa using h3)] at h
          obtain ⟨rfl, rfl⟩ := Prod.mk.inj (Option.some.inj h)
          exact ⟨h1, by simpa using h2⟩
        · simp only [matchFieldGo] at h
          rw [if_neg (by simpa using h1)] at h
          rw [if_neg (by simpa using h2)] at h
          rw [if_neg (by simpa using h3)] at h
          refine ih (i + 1) _ ?_ j g h
          intro j2 g2 hacc2
          split_ifs at hacc2 <;>
            first
            | (obtain ⟨rfl, rfl⟩ := Prod.mk.inj (Option.some.inj hacc2)
               exact ⟨h1, by simpa using h2⟩)
            | exact hacc j2 g2 hacc2

/- The claim theorems. -/

set_option maxRecDepth 2000000

/-- Claim C1 (code_bug): the round-trip property fails for non-integral
floats.  Marshal of the float 2.4 produces the CFNumber 2.4, but Unmarshal
into an empty-interface target maps every CFNumber to int64 (cfTypeMap), so
the decoded value is the truncated integer 2, while standardize leaves a
non-integral float unchanged: the round-trip does not equal standardize even
though 2.4 is neither NaN nor infinite. -/
theorem C1_roundtrip_truncates_noninteger_floats :
    Marshal (.float 64 (.finite ratTwoPointFour)) XMLFormat
      = .ok (.wellFormed (.number (.float64 (.finite ratTwoPointFour))) XMLFormat)
  ∧ Unmarshal (.wellFormed (.number (.float64 (.finite ratTwoPointFour))) XMLFormat)
        (.ptrArg .ifaceTy .nilIface)
      = ⟨XMLFormat, none, some (.int .i64 2)⟩
  ∧ (GoFloat.finite ratTwoPointFour).isNaN = false
  ∧ (GoFloat.finite ratTwoPointFour).isInf = false
  ∧ (standardize (.float 64 (.finite ratTwoPointFour))).1 = .float 64 (.finite ratTwoPointFour)
  ∧ GoValue.int .i64 2 ≠ GoValue.float 64 (.finite ratTwoPointFour) := by
  refine ⟨by with_unfolding_all rfl, by with_unfolding_all rfl, rfl, rfl,
    by with_unfolding_all rfl, by simp⟩

/-- Claim C2 (corrected): a native uint64 value never reaches the CFNumber
conversion at all: convertValueToCFType has no case for the uint64 kind (nor
for 64-bit uint and uintptr), so Marshal returns an UnsupportedTypeError for
every such value, in range or not, rather than the UnsupportedValueError the
spec describes for out-of-range values and the Number encoding it describes
for in-range ones. -/
theorem C2_uint64_marshal_always_unsupported :
    (∀ (v : Nat) (format : Format),
        Marshal (.uint .u64 v) format = .error (.unsupportedType "uint64"))
  ∧ (∀ (v : Nat) (format : Format),
        Marshal (.uint (.uptr 64) v) format = .error (.unsupportedType "uint")) := by
  constructor <;> intro v format <;> simp [Marshal, marshalValue, convertValueToCFType]

/-- Claim C2 counterexample: the in-range uint64 value 1 (well inside the
signed 64-bit range, so the spec says it encodes as a Number) is rejected
with an UnsupportedTypeError. -/
theorem C2_in_range_uint64_rejected :
    Marshal (.uint .u64 1) XMLFormat = .error (.unsupportedType "uint64")
    ∧ (1 : Nat) ≤ 9223372036854775807 := ⟨by with_unfolding_all rfl, by decide⟩

/-- Claim C3 (corrected): an invalid target (nil, non-pointer, or nil
pointer) does produce an InvalidUnmarshalError, but only after the bytes
parsed: Unmarshal hands the data to the format codec first and checks the
argument second. -/
theorem C3_invalid_target_checked_after_parse (v : CFValue) (format : Format)
    (arg : UnmarshalArg)
    (h : arg = .nilArg ∨ (∃ ty w, arg = .nonPtr ty w) ∨ (∃ ty, arg = .nilPtrArg ty)) :
    Unmarshal (.wellFormed v format) arg
      = ⟨format, some (.invalidUnmarshal (argTypeDesc arg)), none⟩ := by
  rcases h with h | ⟨ty, w, h⟩ | ⟨ty, h⟩ <;> subst h <;>
    simp [Unmarshal, cfPropertyListCreateWithData, argTypeDesc]

/-- Claim C3 witness: a nil target with well-formed data yields the
InvalidUnmarshalError. -/
theorem C3_invalid_target_checked_after_parse_witness :
    Unmarshal (.wellFormed (.boolean true) XMLFormat) .nilArg
      = ⟨XMLFormat, some (.invalidUnmarshal "nil"), none⟩ :=
  C3_invalid_target_checked_after_parse (.boolean true) XMLFormat .nilArg (Or.inl rfl)

/-- Claim C3 counterexample: with malformed bytes and a nil target, Unmarshal
returns the codec failure, not the InvalidUnmarshalError the spec promises
for an invalid target checked before any decoding. -/
theorem C3_malformed_with_invalid_target_gives_parse_error :
    Unmarshal .malformed .nilArg = ⟨⟨0⟩, some .cfError, none⟩
    ∧ PErr.cfError ≠ .invalidUnmarshal (argTypeDesc .nilArg) :=
  ⟨rfl, by simp⟩

/-- Claim C4 (corrected): signed numeric decode is overflow-checked against
the exact target width (-5 decodes into an int16 exactly; an out-of-range
CFNumber records an UnmarshalTypeError carrying the decimal text of the value
and leaves the target unchanged), but unsigned decode first truncates the
CFNumber to its low 32 bits (convertCFNumberToUInt32), so a uint64 target
always receives the value mod 2^32 with no error instead of an exact
full-width decode. -/
theorem C4_signed_exact_unsigned_truncated :
    (∀ (format : Format),
        Unmarshal (.wellFormed (.number (.sint64 (-5))) format)
            (.ptrArg (.intTy .i16) (.int .i16 0))
          = ⟨format, none, some (.int .i16 (-5))⟩)
  ∧ (∀ (i : Int) (format : Format),
        Unmarshal (.wellFormed (.number (.sint64 i)) format)
            (.ptrArg (.intTy .i16) (.int .i16 0))
          = if overflowInt .i16 i
            then ⟨format, some (.unmarshalType ("CFNumber " ++ toString i) (.intTy .i16)),
                   some (.int .i16 0)⟩
            else ⟨format, none, some (.int .i16 i)⟩)
  ∧ (∀ (i : Int) (format : Format),
        Unmarshal (.wellFormed (.number (.sint64 i)) format)
            (.ptrArg (.uintTy .u64) (.uint .u64 3))
          = ⟨format, none, some (.uint .u64 (uint32OfInt64 i))⟩) := by
  refine ⟨fun format => ?_, fun i format => ?_, fun i format => ?_⟩
  · have h := unmarshal_number_into_int (.sint64 (-5)) .i16 0 format
    have hov : overflowInt .i16 (cfNumberToInt64 (.sint64 (-5))) = false := by decide
    rw [hov] at h
    simpa [cfNumberToInt64] using h
  · have h := unmarshal_number_into_int (.sint64 i) .i16 0 format
    simpa [cfNumberToInt64] using h
  · have h := unmarshal_number_into_uint (.sint64 i) .u64 3 format
    have hb0 : 0 ≤ Int.emod i 4294967296 :=
      Int.emod_nonneg i (by norm_num)
    have hb1 : Int.emod i 4294967296 < 4294967296 :=
      Int.emod_lt_of_pos i (by norm_num)
    have hov : overflowUint .u64 (cfNumberToUInt32 (.sint64 i)) = false := by
      simp only [overflowUint, cfNumberToUInt32, cfNumberToInt64, uint32OfInt64,
        UintKind.bits, decide_eq_false_iff_not, not_le]
      omega
    rw [hov] at h
    simpa [cfNumberToUInt32, cfNumberToInt64] using h

/-- Claim C4 counterexample: the CFNumber 2^32 decoded into a uint64 target
silently becomes 0 (its low 32 bits), with no error recorded, although it is
representable in a uint64. -/
theorem C4_uint64_target_truncates :
    Unmarshal (.wellFormed (.number (.sint64 4294967296)) XMLFormat)
        (.ptrArg (.uintTy .u64) (.uint .u64 0))
      = ⟨XMLFormat, none, some (.uint .u64 0)⟩
    ∧ uint32OfInt64 4294967296 ≠ 4294967296 :=
  ⟨by with_unfolding_all rfl, by decide⟩

/-- Claim C5 (confirmed): key matching prefers an exact tag-name match over
both kinds of declared-name match, and an exact declared-name match over a
case-insensitive one: decoding the key myKey into a struct whose first field
MYKEY matches only case-insensitively while the second field carries the tag
myKey stores the value into the tagged field; on the matchField level, the
tag match on a later field beats the case-insensitive name match on an
earlier one, and an exact name match beats an earlier case-insensitive
one. -/
theorem C5_tag_match_beats_case_insensitive (i : Int) (format : Format)
    (h : overflowInt .iword i = false) :
    Unmarshal (.wellFormed (.dict [(strBytes "myKey", .number (.sint64 i))]) format)
        (.ptrArg tyTagPrec (zeroValue tyTagPrec))
      = ⟨format, none,
         some (.struct [(.mk "MYKEY" "" true false (.intTy .iword), .int .iword 0),
                        (.mk "A" "myKey" true false (.intTy .iword), .int .iword i)])⟩
  ∧ matchField [FieldDecl.mk "MYKEY" "" true false (.intTy .iword),
        FieldDecl.mk "A" "myKey" true false (.intTy .iword)] (strBytes "myKey")
      = some (1, FieldDecl.mk "A" "myKey" true false (.intTy .iword))
  ∧ matchField [FieldDecl.mk "XY" "" true false (.intTy .iword),
        FieldDecl.mk "xy" "" true false (.intTy .iword)] (strBytes "xy")
      = some (1, FieldDecl.mk "xy" "" true false (.intTy .iword)) := by
  refine ⟨?_, rfl, rfl⟩
  have hm : matchField [FieldDecl.mk "MYKEY" "" true false (.intTy .iword),
      FieldDecl.mk "A" "myKey" true false (.intTy .iword)] (strBytes "myKey")
      = some (1, FieldDecl.mk "A" "myKey" true false (.intTy .iword)) := rfl
  simp [Unmarshal, cfPropertyListCreateWithData, unmarshalPtr, stripPtrTy, stripPtrVal,
    rewrapPtr, derefPointee, unmarshalCore, effTy, effSlot, isIfaceTy, tyTagPrec,
    zeroValue, zeroFields, unmarshalDictInto, structFieldsOf, unmarshalStructEntries,
    hm, structFieldValue, FieldDecl.exported, FieldDecl.ty, FieldDecl.name,
    unmarshalNumberInto, cfNumberToInt64, h, recordError]

/-- Claim C5 witness: the value 4 lands in the tagged field A while MYKEY
stays zero. -/
theorem C5_tag_match_beats_case_insensitive_witness :
    overflowInt .iword 4 = false
  ∧ Unmarshal (.wellFormed (.dict [(strBytes "myKey", .number (.sint64 4))]) XMLFormat)
        (.ptrArg tyTagPrec (zeroValue tyTagPrec))
      = ⟨XMLFormat, none,
         some (.struct [(.mk "MYKEY" "" true false (.intTy .iword), .int .iword 0),
                        (.mk "A" "myKey" true false (.intTy .iword), .int .iword 4)])⟩ :=
  ⟨by decide, (C5_tag_match_beats_case_insensitive 4 XMLFormat (by decide)).1⟩

/-- Claim C6 (confirmed): decoding the dictionary with X an array and Y the
number 4 into a struct of two int fields leaves X at zero, sets Y to 4 and
returns exactly the one UnmarshalTypeError naming the CFArray-into-int
conflict; with a second mismatching field the first recorded error still
wins. -/
theorem C6_best_effort_first_error_wins :
    Unmarshal (.wellFormed (.dict
        [(strBytes "X", .array [.number (.sint64 1), .number (.sint64 2), .number (.sint64 3)]),
         (strBytes "Y", .number (.sint64 4))]) XMLFormat)
        (.ptrArg tyT6 (zeroValue tyT6))
      = ⟨XMLFormat, some (.unmarshalType "CFArray" (.intTy .iword)),
         some (.struct [(.mk "X" "" true false (.intTy .iword), .int .iword 0),
                        (.mk "Y" "" true false (.intTy .iword), .int .iword 4)])⟩
  ∧ Unmarshal (.wellFormed (.dict
        [(strBytes "X", .array [.number (.sint64 1)]),
         (strBytes "Y", .string (strBytes "s"))]) XMLFormat)
        (.ptrArg tyT6 (zeroValue tyT6))
      = ⟨XMLFormat, some (.unmarshalType "CFArray" (.intTy .iword)), some (zeroValue tyT6)⟩ :=
  ⟨by with_unfolding_all rfl, by with_unfolding_all rfl⟩

/-- Claim C7 (confirmed): marshaling the Optionals struct emits exactly the
four non-omitted entries sr, omitempty, slr and mr, in field order: the
omit-empty-tagged empty fields So, Io, Slo and Mo are dropped, the field Sw
tagged with a dash never appears, and the field Ir whose tag NAMES it
omitempty (with no omitempty option) is kept. -/
theorem C7_omit_empty_encoding :
    Marshal (.struct optionalsFields) XMLFormat
      = .ok (.wellFormed (.dict
          [(strBytes "sr", .string []),
           (strBytes "omitempty", .number (.sint64 0)),
           (strBytes "slr", .array []),
           (strBytes "mr", .dict [])]) XMLFormat) := by
  with_unfolding_all rfl

/-- Claim C8 (code_bug): a string holding the invalid UTF-8 byte 0xFF is not
repaired with the replacement character: the CFString conversion fails
(CFStringCreateWithBytes returns NULL for invalid UTF-8) and Marshal reports
an error, against the repaired-never-fails contract. -/
theorem C8_invalid_utf8_string_marshal_fails :
    utf8Valid [255] = false
  ∧ convertStringToCFString [255] = none
  ∧ Marshal (.string [255]) XMLFormat = .error .stringConv :=
  ⟨rfl, rfl, by with_unfolding_all rfl⟩

/-- Claim C9 (confirmed): a dictionary key that matches an unexported struct
field aborts the whole decode with an UnmarshalFieldError, even when a
recoverable error was already recorded (the field error is returned directly,
never accumulated), while a key matching no field decodes to nothing and
produces no error. -/
theorem C9_unexported_fatal_unmatched_dropped :
    Unmarshal (.wellFormed (.dict [(strBytes "x", .number (.sint64 1))]) XMLFormat)
        (.ptrArg tyTx (zeroValue tyTx))
      = ⟨XMLFormat, some (.unmarshalField (strBytes "x") "x"), none⟩
  ∧ Unmarshal (.wellFormed (.dict
        [(strBytes "A", .string (strBytes "s")),
         (strBytes "x", .number (.sint64 1))]) XMLFormat)
        (.ptrArg tyTax (zeroValue tyTax))
      = ⟨XMLFormat, some (.unmarshalField (strBytes "x") "x"), none⟩
  ∧ Unmarshal (.wellFormed (.dict [(strBytes "Nope", .number (.sint64 1))]) XMLFormat)
        (.ptrArg tyT6 (zeroValue tyT6))
      = ⟨XMLFormat, none, some (zeroValue tyT6)⟩ :=
  ⟨by with_unfolding_all rfl, by with_unfolding_all rfl, by with_unfolding_all rfl⟩

/-- Claim C10 (confirmed): a field tagged with a dash and an anonymous
(embedded) field are invisible to key matching: a key equal to such a field
name matches nothing, the field keeps its zero value and no error is
recorded. -/
theorem C10_dash_tag_and_anonymous_invisible :
    Unmarshal (.wellFormed (.dict [(strBytes "Z", .number (.sint64 7))]) XMLFormat)
        (.ptrArg tyT (zeroValue tyT))
      = ⟨XMLFormat, none, some (zeroValue tyT)⟩
  ∧ matchField [FieldDecl.mk "X" "" true false .stringTy,
        FieldDecl.mk "Y" "" true false (.intTy .iword),
        FieldDecl.mk "Z" "-" true false (.intTy .iword)] (strBytes "Z") = none
  ∧ Unmarshal (.wellFormed (.dict [(strBytes "Emb", .number (.sint64 7))]) XMLFormat)
        (.ptrArg tyAnon (zeroValue tyAnon))
      = ⟨XMLFormat, none, some (zeroValue tyAnon)⟩
  ∧ matchField [FieldDecl.mk "Emb" "" true true (.intTy .iword)] (strBytes "Emb") = none :=
  ⟨by with_unfolding_all rfl, rfl, by with_unfolding_all rfl, rfl⟩
